/-
Verification of the real-time connection and message-fan-out subsystem of
the `real-time-chat` backend (src/backend/app/websocket/).

The two source files embedded here are
  * `connection_manager.py` — the `ConnectionManager` class: the connection
    registry (`active_connections`), the subscription index
    (`chatroom_subscriptions`), the presence map (`user_presence`) and the
    per-connection metadata map (`connection_metadata`), together with the
    operations `connect`, `disconnect`, `send_personal_message`,
    `broadcast_to_chatroom`, `broadcast_to_all`, `broadcast_user_status`,
    `join_chatroom`, `leave_chatroom`, the query helpers and
    `cleanup_stale_connections`;
  * `router.py` — the WebSocket endpoint: the connect phase, the receive
    loop dispatching inbound envelopes to `handle_join_chatroom`,
    `handle_leave_chatroom`, `handle_send_message`,
    `handle_typing_indicator` and the inline `ping` reply, the Redis
    publications (`publish_to_redis`), and the `finally` cleanup path.

Python dictionaries are embedded as association lists with unique keys
(all states reachable by the operations keep keys unique), Python sets of
user ids as duplicate-free lists built by insert-if-absent, and
`datetime.utcnow()` as an explicit `Nat` timestamp parameter measured in
seconds.  A network write that raises is modelled by a `broken` list of
connection ids: `send_text` on a connection in `broken` fails, any other
send succeeds.  Outbound traffic is recorded as an explicit list of
`Delivery` events in the order the sends are issued; the `asyncio.gather`
fan-outs are sequentialised, which is faithful here because each
per-user send touches only that user's registry entries.
-/
import Mathlib

namespace RTChat

/-- Python `dict` lookup on an association list (first matching key). -/
def lookup {α β : Type} [DecidableEq α] (k : α) : List (α × β) → Option β
  | [] => none
  | (k', v) :: rest => if k' = k then some v else lookup k rest

/-- Lookup with a default, `dict.get(k, d)`. -/
def lookupD {α β : Type} [DecidableEq α] (k : α) (d : β) (l : List (α × β)) : β :=
  (lookup k l).getD d

/-- Python `k in dict`. -/
def containsKey {α β : Type} [DecidableEq α] (k : α) (l : List (α × β)) : Bool :=
  (lookup k l).isSome

/-- Python `dict[k] = v`: overwrite the first binding of `k`, or append. -/
def upsert {α β : Type} [DecidableEq α] (k : α) (v : β) : List (α × β) → List (α × β)
  | [] => [(k, v)]
  | (k', v') :: rest => if k' = k then (k, v) :: rest else (k', v') :: upsert k v rest

/-- Python `del dict[k]` (no-op when the key is absent, used only guarded). -/
def eraseKey {α β : Type} [DecidableEq α] (k : α) : List (α × β) → List (α × β)
  | [] => []
  | (k', v') :: rest => if k' = k then rest else (k', v') :: eraseKey k rest

/-- Python `set.add`: insert-if-absent, keeping the list duplicate-free. -/
def setAdd {α : Type} [DecidableEq α] (a : α) (l : List α) : List α :=
  if a ∈ l then l else l ++ [a]

/-- `connection_metadata` entry: `{user_id, connected_at, last_activity}`. -/
structure ConnMeta where
  user_id : String
  connected_at : Nat
  last_activity : Nat
  deriving DecidableEq, Repr

/--
The mutable state of `ConnectionManager.__init__`:
`active_connections : {user_id: [websockets]}`,
`chatroom_subscriptions : {chatroom_id: {user_ids}}`,
`user_presence : {user_id: last_seen_timestamp}`,
`connection_metadata : {websocket_id: metadata}`.
Websocket identities are `Nat` (Python `id(websocket)`).
-/
@[ext]
structure CMState where
  active_connections : List (String × List Nat)
  chatroom_subscriptions : List (String × List String)
  user_presence : List (String × Nat)
  connection_metadata : List (Nat × ConnMeta)
  deriving DecidableEq, Repr

/-- The freshly constructed manager: all four maps empty. -/
def CMState.init : CMState :=
  { active_connections := [], chatroom_subscriptions := []
    user_presence := [], connection_metadata := [] }

/-- The message record built by `handle_send_message` in `router.py`. -/
structure Message where
  id : String
  chatroom_id : String
  user_id : String
  username : String
  content : String
  message_type : String
  timestamp : Nat
  client_id : Option String
  edited : Bool
  deriving DecidableEq, Repr

/-- Outbound envelopes, one constructor per `json.dumps` site in the source. -/
inductive OutMsg where
  | connected (user_id username : String) (t : Nat)
  | userStatus (status : String) (user_id : String) (t : Nat)
  | userJoined (user_id username chatroom_id : String) (t : Nat)
  | userLeft (user_id chatroom_id : String) (t : Nat)
  | messageReceived (m : Message)
  | typingIndicator (user_id username chatroom_id : String) (is_typing : Bool) (t : Nat)
  | pong (t : Nat)
  deriving DecidableEq, Repr

/-- One completed `send_text`: which websocket of which user got which envelope. -/
structure Delivery where
  conn : Nat
  user : String
  msg : OutMsg
  deriving DecidableEq, Repr

namespace ConnectionManager

/--
`ConnectionManager.connect(websocket, user_id)`: append the websocket to the
user's connection list (creating the entry), record metadata with
`connected_at = last_activity = t`, and set `user_presence[user_id] = t`.
-/
def connect (ws : Nat) (uid : String) (t : Nat) (σ : CMState) : CMState :=
  let conns := lookupD uid [] σ.active_connections
  { σ with
    active_connections := upsert uid (conns ++ [ws]) σ.active_connections
    connection_metadata := upsert ws ⟨uid, t, t⟩ σ.connection_metadata
    user_presence := upsert uid t σ.user_presence }

/-- The cascading purge inside `disconnect`: `discard(user_id)` on every
chatroom set, deleting sets that become empty. -/
def purgeUser (uid : String) : List (String × List String) → List (String × List String)
  | [] => []
  | (room, users) :: rest =>
      let users' := users.erase uid
      if users' = [] then purgeUser uid rest
      else (room, users') :: purgeUser uid rest

/--
The registry/subscription phase of `ConnectionManager.disconnect`: when the
user has a registry entry, remove the websocket from its list
(`list.remove`, a no-op when absent); when the list empties, delete the
entry and run the cascading purge over every chatroom subscription.
-/
def disconnectCore (ws : Nat) (uid : String) (σ : CMState) : CMState :=
  match lookup uid σ.active_connections with
  | none => σ
  | some conns =>
      let conns' := conns.erase ws
      if conns' = [] then
        { σ with
          active_connections := eraseKey uid σ.active_connections
          chatroom_subscriptions := purgeUser uid σ.chatroom_subscriptions }
      else
        { σ with active_connections := upsert uid conns' σ.active_connections }

/--
The presence phase of `ConnectionManager.disconnect`: when the user has no
registry entry (left), stamp `user_presence[user_id]` with the time `t`.
-/
def stampOffline (uid : String) (t : Nat) (σ : CMState) : CMState :=
  if containsKey uid σ.active_connections then σ
  else { σ with user_presence := upsert uid t σ.user_presence }

/--
`ConnectionManager.disconnect(websocket, user_id)`: the registry and
subscription updates (`disconnectCore`), then unconditional removal of the
websocket's `connection_metadata` entry, then the presence stamp
(`stampOffline`).
-/
def disconnect (ws : Nat) (uid : String) (t : Nat) (σ : CMState) : CMState :=
  let σ1 := disconnectCore ws uid σ
  stampOffline uid t { σ1 with connection_metadata := eraseKey ws σ1.connection_metadata }

/-- Update `connection_metadata[ws].last_activity` when the entry exists. -/
def touchActivity (ws : Nat) (t : Nat) : List (Nat × ConnMeta) → List (Nat × ConnMeta)
  | [] => []
  | (k, m) :: rest =>
      if k = ws then (k, { m with last_activity := t }) :: rest
      else (k, m) :: touchActivity ws t rest

/-- The send loop of `send_personal_message`: iterate the user's connection
list, record a `Delivery` and refresh `last_activity` on success, collect
the failing connections (those in `broken`) for cleanup after the loop. -/
def sendLoop (msg : OutMsg) (uid : String) (broken : List Nat) (t : Nat) :
    List Nat → CMState → List Delivery → List Nat → CMState × List Delivery × List Nat
  | [], σ, ds, bad => (σ, ds, bad)
  | c :: rest, σ, ds, bad =>
      if c ∈ broken then sendLoop msg uid broken t rest σ ds (bad ++ [c])
      else
        sendLoop msg uid broken t rest
          { σ with connection_metadata := touchActivity c t σ.connection_metadata }
          (ds ++ [⟨c, uid, msg⟩]) bad

/-- The trailing cleanup loop of `send_personal_message`: `disconnect` each
connection whose send failed. -/
def disconnectAll (uid : String) (t : Nat) : List Nat → CMState → CMState
  | [], σ => σ
  | c :: rest, σ => disconnectAll uid t rest (disconnect c uid t σ)

/--
`ConnectionManager.send_personal_message(message, user_id)`: iterate the
user's current connection list; a successful `send_text` records a
`Delivery` and refreshes that connection's `last_activity`; a failing send
(connection listed in `broken`) is collected and `disconnect`ed after the
loop.  The Python function has no `return` statement — its result is
`None`, embedded as the `Option Nat` component `none` (the spec's
`delivered_count` would be `some n`).
-/
def send_personal_message (msg : OutMsg) (uid : String) (broken : List Nat) (t : Nat)
    (σ : CMState) : CMState × List Delivery × Option Nat :=
  match lookup uid σ.active_connections with
  | none => (σ, [], none)
  | some conns =>
      let r := sendLoop msg uid broken t conns σ [] []
      (disconnectAll uid t r.2.2 r.1, r.2.1, none)

/-- Python truthiness of the `exclude_user` check:
`if exclude_user and user_id == exclude_user: continue`. -/
def excluded (exclude : Option String) (u : String) : Bool :=
  match exclude with
  | none => false
  | some e => decide (e ≠ "") && decide (u = e)

/-- The per-user loop shared by `broadcast_to_chatroom` and
`broadcast_user_status`: for each listed user that is not (truthily)
excluded and has a registry entry, run `send_personal_message`.
`broadcast_user_status` has no exclusion check, which is the `exclude :=
none` instance.  The Python task lists are gathered after the iteration;
the sequential loop is equivalent because each user's send mutates only
that user's own entries. -/
def roomLoop (msg : OutMsg) (exclude : Option String) (broken : List Nat) (t : Nat) :
    List String → CMState → List Delivery → CMState × List Delivery
  | [], σ, ds => (σ, ds)
  | u :: rest, σ, ds =>
      if excluded exclude u then roomLoop msg exclude broken t rest σ ds
      else if containsKey u σ.active_connections then
        let r := send_personal_message msg u broken t σ
        roomLoop msg exclude broken t rest r.1 (ds ++ r.2.1)
      else roomLoop msg exclude broken t rest σ ds

/--
`ConnectionManager.broadcast_to_chatroom(message, chatroom_id, exclude_user)`:
for each subscriber of the room (skipping the truthy excluded user) that has
a registry entry, send the envelope to all their connections.
-/
def broadcast_to_chatroom (msg : OutMsg) (room : String) (exclude : Option String)
    (broken : List Nat) (t : Nat) (σ : CMState) : CMState × List Delivery :=
  match lookup room σ.chatroom_subscriptions with
  | none => (σ, [])
  | some users => roomLoop msg exclude broken t users σ []

/-- The `relevant_users` set of `broadcast_user_status`: union of the
subscriber sets of every chatroom containing the user, then
`discard(user_id)`. -/
def relevantUsers (uid : String) (subs : List (String × List String)) : List String :=
  (subs.foldl
    (fun acc p => if uid ∈ p.2 then p.2.foldl (fun a u => setAdd u a) acc else acc)
    []).erase uid

/--
`ConnectionManager.broadcast_user_status(user_id, status, user_data)`:
compute `relevant_users` from the current subscription index, drop the user
themselves, and send the `user_{status}` envelope to every relevant user
that has a registry entry.
-/
def broadcast_user_status (uid status : String) (broken : List Nat) (t : Nat)
    (σ : CMState) : CMState × List Delivery :=
  roomLoop (.userStatus status uid t) none broken t
    (relevantUsers uid σ.chatroom_subscriptions) σ []

/-- `ConnectionManager.join_chatroom(user_id, chatroom_id)`: `set.add` into
the room's subscriber set, creating the set if absent. -/
def join_chatroom (uid room : String) (σ : CMState) : CMState :=
  let users := lookupD room [] σ.chatroom_subscriptions
  { σ with chatroom_subscriptions := upsert room (setAdd uid users) σ.chatroom_subscriptions }

/-- `ConnectionManager.leave_chatroom(user_id, chatroom_id)`: `set.discard`,
deleting the room's entry when the set becomes empty. -/
def leave_chatroom (uid room : String) (σ : CMState) : CMState :=
  match lookup room σ.chatroom_subscriptions with
  | none => σ
  | some users =>
      let users' := users.erase uid
      if users' = [] then
        { σ with chatroom_subscriptions := eraseKey room σ.chatroom_subscriptions }
      else
        { σ with chatroom_subscriptions := upsert room users' σ.chatroom_subscriptions }

/-- `ConnectionManager.get_chatroom_members(chatroom_id)`. -/
def get_chatroom_members (room : String) (σ : CMState) : List String :=
  lookupD room [] σ.chatroom_subscriptions

/-- `ConnectionManager.is_user_online(user_id)`: `user_id in active_connections`. -/
def is_user_online (uid : String) (σ : CMState) : Bool :=
  containsKey uid σ.active_connections

/-- `ConnectionManager.get_user_connection_count(user_id)`. -/
def get_user_connection_count (uid : String) (σ : CMState) : Nat :=
  (lookupD uid [] σ.active_connections).length

/-- The staleness test of `cleanup_stale_connections`:
`(current_time - last_activity).total_seconds() / 60 > max_idle_minutes`,
with timestamps in seconds (a negative difference is never stale, matching
truncated `Nat` subtraction). -/
def isStale (t maxIdleMinutes last : Nat) : Bool :=
  decide (t - last > 60 * maxIdleMinutes)

/--
`ConnectionManager.cleanup_stale_connections(max_idle_minutes)`: collect the
`(websocket_id, user_id)` pairs whose `last_activity` exceeds the idle
threshold, then for each one that is still present in some registry list,
close it and call `disconnect`.
-/
def reapLoop (t : Nat) : List (Nat × String) → CMState → CMState
  | [], σ => σ
  | p :: rest, σ =>
      if σ.active_connections.any (fun e => p.1 ∈ e.2) then
        reapLoop t rest (disconnect p.1 p.2 t σ)
      else reapLoop t rest σ

/--
`ConnectionManager.cleanup_stale_connections(max_idle_minutes)`: collect the
`(websocket_id, user_id)` pairs whose `last_activity` exceeds the idle
threshold, then for each one that is still present in some registry list,
close it and call `disconnect` (the reap loop, `reapLoop`).
-/
def cleanup_stale_connections (t maxIdleMinutes : Nat) (σ : CMState) : CMState :=
  let stale := σ.connection_metadata.filterMap
    (fun p => if isStale t maxIdleMinutes p.2.last_activity then some (p.1, p.2.user_id) else none)
  reapLoop t stale σ

end ConnectionManager

namespace Router

open ConnectionManager

/-- A scalar JSON value occurring in a Redis publication. -/
inductive JVal where
  | str (s : String)
  | nat (n : Nat)
  | msg (m : Message)
  deriving DecidableEq, Repr

/-- One `publish_to_redis(channel, message)` call: the channel name and the
published JSON object as its exact key/value pairs. -/
structure RedisPub where
  channel : String
  payload : List (String × JVal)
  deriving DecidableEq, Repr

/-- The `data` object of an inbound envelope: `message_data.get("data", {})`
with each field read by `event_data.get(...)`. -/
structure EventData where
  chatroom_id : Option String := none
  content : Option String := none
  message_type : Option String := none
  client_id : Option String := none
  deriving DecidableEq, Repr

/-- Python truthiness of an optional string: `None` and `""` are falsy. -/
def falsy : Option String → Bool
  | none => true
  | some s => decide (s = "")

/-- An inbound frame: either text that `json.loads` cannot decode as an
envelope object, or a decoded envelope with its optional `event` string. -/
inductive Frame where
  | malformed
  | envelope (event : Option String) (data : EventData)
  deriving DecidableEq, Repr

/-- The authorization collaborator `check_chatroom_membership(user, room, db)`
(a database query), abstracted as a boolean relation. -/
def Membership : Type := String → String → Bool

/-- The outcome of one router action: connection-manager state, the local
deliveries issued, and the Redis publications issued, in order. -/
structure Effects where
  state : CMState
  deliveries : List Delivery
  pubs : List RedisPub
  deriving DecidableEq, Repr

/--
`handle_join_chatroom`: bail out on a falsy `chatroom_id` or a failed
membership check; otherwise `join_chatroom`, broadcast `user_joined` to the
room excluding the sender, and publish
`{"event", "user_joined", "user_id", "username", "timestamp"}` to
`chatroom:{id}` on Redis.
-/
def handle_join_chatroom (uid username : String) (isMember : Membership)
    (data : EventData) (broken : List Nat) (t : Nat) (σ : CMState) : Effects :=
  if falsy data.chatroom_id then ⟨σ, [], []⟩
  else
    let room := data.chatroom_id.getD ""
    if ¬ isMember uid room then ⟨σ, [], []⟩
    else
      let σ1 := join_chatroom uid room σ
      let r := broadcast_to_chatroom (.userJoined uid username room t) room (some uid) broken t σ1
      ⟨r.1, r.2,
        [⟨"chatroom:" ++ room,
          [("event", .str "user_joined"), ("user_id", .str uid),
           ("username", .str username), ("timestamp", .nat t)]⟩]⟩

/--
`handle_leave_chatroom`: bail out on a falsy `chatroom_id`; otherwise
`leave_chatroom`, broadcast `user_left` excluding the sender, and publish
`{"event", "user_id", "timestamp"}` to Redis.
-/
def handle_leave_chatroom (uid : String) (data : EventData) (broken : List Nat)
    (t : Nat) (σ : CMState) : Effects :=
  if falsy data.chatroom_id then ⟨σ, [], []⟩
  else
    let room := data.chatroom_id.getD ""
    let σ1 := leave_chatroom uid room σ
    let r := broadcast_to_chatroom (.userLeft uid room t) room (some uid) broken t σ1
    ⟨r.1, r.2,
      [⟨"chatroom:" ++ room,
        [("event", .str "user_left"), ("user_id", .str uid), ("timestamp", .nat t)]⟩]⟩

/-- The message record constructed by `handle_send_message`
(`id = f"msg_{timestamp}_{user_id}"`, `edited = False`). -/
def mkMessage (uid username room content mtype : String) (client_id : Option String)
    (t : Nat) : Message :=
  { id := "msg_" ++ toString t ++ "_" ++ uid
    chatroom_id := room, user_id := uid, username := username
    content := content, message_type := mtype, timestamp := t
    client_id := client_id, edited := false }

/--
`handle_send_message`: bail out when `chatroom_id` or `content` is falsy or
the membership check fails; otherwise build the message record, hand it to
the (fire-and-forget) Mongo store, broadcast `message_received` to the room
with NO excluded user, and publish `{"event", "message"}` to Redis.
-/
def handle_send_message (uid username : String) (isMember : Membership)
    (data : EventData) (broken : List Nat) (t : Nat) (σ : CMState) : Effects :=
  if falsy data.chatroom_id ∨ falsy data.content then ⟨σ, [], []⟩
  else
    let room := data.chatroom_id.getD ""
    if ¬ isMember uid room then ⟨σ, [], []⟩
    else
      let m := mkMessage uid username room (data.content.getD "")
        ((data.message_type).getD "text") data.client_id t
      let r := broadcast_to_chatroom (.messageReceived m) room none broken t σ
      ⟨r.1, r.2,
        [⟨"chatroom:" ++ room, [("event", .str "message_received"), ("message", .msg m)]⟩]⟩

/-- `handle_typing_indicator`: bail out on a falsy `chatroom_id`; otherwise
broadcast `typing_indicator` excluding the sender; no Redis publication. -/
def handle_typing_indicator (uid username : String) (data : EventData)
    (is_typing : Bool) (broken : List Nat) (t : Nat) (σ : CMState) : Effects :=
  if falsy data.chatroom_id then ⟨σ, [], []⟩
  else
    let room := data.chatroom_id.getD ""
    let r := broadcast_to_chatroom (.typingIndicator uid username room is_typing t) room
      (some uid) broken t σ
    ⟨r.1, r.2, []⟩

/-- Protocol-handler connection states relevant to the receive loop. -/
inductive ConnState where
  | active
  | closed
  deriving DecidableEq, Repr

/--
One iteration of the receive loop of `websocket_endpoint` on connection
`ws` of user `uid`.  A malformed frame makes `json.loads` raise: the
exception escapes the inner `while`, the outer handler closes the socket
with code 4000, and the `finally` block runs `disconnect` followed by the
`offline` status broadcast — the connection ends `closed`.  A decoded
envelope is dispatched on its `event` string (each handler swallows its own
exceptions), an unknown or missing event is logged and ignored, and `ping`
is answered by a `pong` written directly on the websocket (not through
`send_personal_message`, so no metadata is touched) — the connection stays
`active`.
-/
def routerStep (ws : Nat) (uid username : String) (isMember : Membership)
    (frame : Frame) (broken : List Nat) (t : Nat) (σ : CMState) :
    ConnState × Effects :=
  match frame with
  | .malformed =>
      let σ1 := disconnect ws uid t σ
      let r := broadcast_user_status uid "offline" broken t σ1
      (.closed, ⟨r.1, r.2, []⟩)
  | .envelope ev data =>
      match ev with
      | some "join_chatroom" =>
          (.active, handle_join_chatroom uid username isMember data broken t σ)
      | some "leave_chatroom" =>
          (.active, handle_leave_chatroom uid data broken t σ)
      | some "send_message" =>
          (.active, handle_send_message uid username isMember data broken t σ)
      | some "typing_start" =>
          (.active, handle_typing_indicator uid username data true broken t σ)
      | some "typing_stop" =>
          (.active, handle_typing_indicator uid username data false broken t σ)
      | some "ping" =>
          (.active, ⟨σ, [⟨ws, uid, .pong t⟩], []⟩)
      | _ => (.active, ⟨σ, [], []⟩)

/--
The connect phase of `websocket_endpoint` after successful authentication:
`manager.connect`, a `connected` envelope written directly on the new
websocket, then `broadcast_user_status(user_id, "online", ...)`.
-/
def endpointConnect (ws : Nat) (uid username : String) (broken : List Nat)
    (t : Nat) (σ : CMState) : CMState × List Delivery :=
  let σ1 := connect ws uid t σ
  let r := broadcast_user_status uid "online" broken t σ1
  (r.1, ⟨ws, uid, .connected uid username t⟩ :: r.2)

/--
The `finally` block of `websocket_endpoint`, run on every connection close
(client disconnect, server error, or after idle-reaping):
`manager.disconnect` then `broadcast_user_status(user_id, "offline", ...)`.
-/
def endpointClose (ws : Nat) (uid : String) (broken : List Nat) (t : Nat)
    (σ : CMState) : CMState × List Delivery :=
  let σ1 := disconnect ws uid t σ
  let r := broadcast_user_status uid "offline" broken t σ1
  (r.1, r.2)

end Router

section Claims

open ConnectionManager Router

/--
The registry/index well-formedness invariant: every chatroom entry present
in the subscription index has a non-empty member set, and every user entry
present in the connection registry has a non-empty connection list.
-/
def Inv (σ : CMState) : Prop :=
  (∀ p ∈ σ.chatroom_subscriptions, p.2 ≠ ([] : List String)) ∧
  (∀ p ∈ σ.active_connections, p.2 ≠ ([] : List Nat))

instance (σ : CMState) : Decidable (Inv σ) := by unfold Inv; infer_instance

/-- `u` shares at least one chatroom with `uid` in the subscription index. -/
def sharesRoom (uid u : String) (σ : CMState) : Prop :=
  ∃ p ∈ σ.chatroom_subscriptions, uid ∈ p.2 ∧ u ∈ p.2

instance (uid u : String) (σ : CMState) : Decidable (sharesRoom uid u σ) := by
  unfold sharesRoom
  infer_instance

/-- One registry/subscription operation of the manager, for quantifying over
arbitrary operation sequences (connect, disconnect, join, leave, deliveries
with failure cleanup, broadcasts, idle reaping). -/
inductive Op where
  | connect (ws : Nat) (uid : String) (t : Nat)
  | disconnect (ws : Nat) (uid : String) (t : Nat)
  | join (uid room : String)
  | leave (uid room : String)
  | deliver (msg : OutMsg) (uid : String) (broken : List Nat) (t : Nat)
  | broadcastRoom (msg : OutMsg) (room : String) (exclude : Option String)
      (broken : List Nat) (t : Nat)
  | broadcastStatus (uid status : String) (broken : List Nat) (t : Nat)
  | reap (t maxIdle : Nat)

/-- Run one operation on the manager state. -/
def applyOp : Op → CMState → CMState
  | .connect ws uid t, σ => ConnectionManager.connect ws uid t σ
  | .disconnect ws uid t, σ => ConnectionManager.disconnect ws uid t σ
  | .join uid room, σ => join_chatroom uid room σ
  | .leave uid room, σ => leave_chatroom uid room σ
  | .deliver msg uid broken t, σ => (send_personal_message msg uid broken t σ).1
  | .broadcastRoom msg room exclude broken t, σ =>
      (broadcast_to_chatroom msg room exclude broken t σ).1
  | .broadcastStatus uid status broken t, σ => (broadcast_user_status uid status broken t σ).1
  | .reap t maxIdle, σ => cleanup_stale_connections t maxIdle σ

/-- Run a sequence of operations from a state. -/
def applyOps : List Op → CMState → CMState
  | [], σ => σ
  | op :: rest, σ => applyOps rest (applyOp op σ)

/-- `d` is a `message_received` delivery to user `u` whose message carries
the given content and sender. -/
def receivesMsgFrom (u content sender : String) (d : Delivery) : Bool :=
  decide (d.user = u) &&
    match d.msg with
    | .messageReceived m => decide (m.content = content) && decide (m.user_id = sender)
    | _ => false

/-- An authorization collaborator that grants every membership check. -/
def allMember : Membership := fun _ _ => true

/-- C1 scenario, replayed through the protocol flows: user `"u"` opens
connections 1 and 2 and joins rooms `"A"` and `"B"`; user `"v"` opens
connection 3 and joins room `"A"`. -/
def c1State : CMState :=
  (Router.routerStep 3 "v" "V" allMember
    (.envelope (some "join_chatroom") { chatroom_id := some "A" }) [] 5
    ((endpointConnect 3 "v" "V" [] 4
      ((endpointConnect 2 "u" "U" [] 3
        ((Router.routerStep 1 "u" "U" allMember
          (.envelope (some "join_chatroom") { chatroom_id := some "B" }) [] 2
          ((Router.routerStep 1 "u" "U" allMember
            (.envelope (some "join_chatroom") { chatroom_id := some "A" }) [] 1
            ((endpointConnect 1 "u" "U" [] 0 CMState.init).1)).2.state)).2.state)).1)).1)).2.state

/-- C1 scenario: user `"u"` closes connection 1 (the non-final one). -/
def c1FirstClose : CMState × List Delivery := endpointClose 1 "u" [] 10 c1State

/-- C1 scenario: user `"u"` then closes connection 2 (the final one). -/
def c1SecondClose : CMState × List Delivery := endpointClose 2 "u" [] 11 c1FirstClose.1

/-- C2 scenario: an active connection 1 of user `"u"`. -/
def c2State : CMState :=
  { active_connections := [("u", [1])], chatroom_subscriptions := []
    user_presence := [("u", 0)], connection_metadata := [(1, ⟨"u", 0, 0⟩)] }

/-- C4 scenario: `"u"` is already online (connection 1) and shares room
`"A"` with the online user `"v"` (connection 3). -/
def c4State : CMState :=
  { active_connections := [("u", [1]), ("v", [3])]
    chatroom_subscriptions := [("A", ["u", "v"])]
    user_presence := [("u", 0), ("v", 0)]
    connection_metadata := [(1, ⟨"u", 0, 0⟩), (3, ⟨"v", 0, 0⟩)] }

/-- C6 scenario: a single connection of `"u"` whose `last_activity` is 0. -/
def pingState : CMState :=
  { active_connections := [("u", [1])], chatroom_subscriptions := []
    user_presence := [("u", 0)], connection_metadata := [(1, ⟨"u", 0, 0⟩)] }

/-- C6 scenario: the receive loop handles a `ping` on that connection at
time 1800 (30 minutes after the last recorded activity). -/
def pingStep : ConnState × Effects :=
  Router.routerStep 1 "u" "U" allMember (.envelope (some "ping") {}) [] 1800 pingState

/-- C7 scenario: user `"u"`, joined to room `"A"` alongside `"v"`, holds the
single connection 1. -/
def c7Base : CMState :=
  { active_connections := [("u", [1]), ("v", [2])]
    chatroom_subscriptions := [("A", ["u", "v"])]
    user_presence := [("u", 0), ("v", 0)]
    connection_metadata := [(1, ⟨"u", 0, 0⟩), (2, ⟨"v", 0, 0⟩)] }

end Claims

section MapLemmas

variable {α β : Type} [DecidableEq α]

theorem lookup_mem {k : α} {v : β} {l : List (α × β)} (h : lookup k l = some v) :
    (k, v) ∈ l := by
  induction l with
  | nil => simp [lookup] at h
  | cons p rest ih =>
      obtain ⟨k', v'⟩ := p
      by_cases hk : k' = k
      · subst hk
        simp [lookup] at h
        simp [h]
      · simp [lookup, hk] at h
        exact List.mem_cons_of_mem _ (ih h)

theorem mem_upsert {k : α} {v : β} {p : α × β} {l : List (α × β)}
    (h : p ∈ upsert k v l) : p = (k, v) ∨ p ∈ l := by
  induction l with
  | nil => simpa [upsert] using h
  | cons q rest ih =>
      obtain ⟨k', v'⟩ := q
      by_cases hk : k' = k
      · subst hk
        simp [upsert] at h
        rcases h with h | h
        · exact Or.inl h
        · exact Or.inr (List.mem_cons_of_mem _ h)
      · simp [upsert, hk] at h
        rcases h with h | h
        · exact Or.inr (by simp [h])
        · rcases ih h with h' | h'
          · exact Or.inl h'
          · exact Or.inr (List.mem_cons_of_mem _ h')

theorem mem_eraseKey {k : α} {p : α × β} {l : List (α × β)}
    (h : p ∈ eraseKey k l) : p ∈ l := by
  induction l with
  | nil => simp [eraseKey] at h
  | cons q rest ih =>
      obtain ⟨k', v'⟩ := q
      by_cases hk : k' = k
      · simp [eraseKey, hk] at h
        exact List.mem_cons_of_mem _ h
      · simp [eraseKey, hk] at h
        rcases h with h | h
        · simp [h]
        · exact List.mem_cons_of_mem _ (ih h)

theorem upsert_lookup_self {k : α} {v : β} {l : List (α × β)}
    (h : lookup k l = some v) : upsert k v l = l := by
  induction l with
  | nil => simp [lookup] at h
  | cons q rest ih =>
      obtain ⟨k', v'⟩ := q
      by_cases hk : k' = k
      · subst hk
        simp [lookup] at h
        simp [upsert, h]
      · simp [lookup, hk] at h
        simp [upsert, hk, ih h]

theorem eraseKey_not_contains {k : α} {l : List (α × β)}
    (h : containsKey k l = false) : eraseKey k l = l := by
  induction l with
  | nil => simp [eraseKey]
  | cons q rest ih =>
      obtain ⟨k', v'⟩ := q
      by_cases hk : k' = k
      · subst hk
        simp [containsKey, lookup] at h
      · simp [containsKey, lookup, hk] at h
        simp [eraseKey, hk, ih (by simp [containsKey, h])]

theorem containsKey_upsert_self {k : α} {v : β} {l : List (α × β)} :
    containsKey k (upsert k v l) = true := by
  induction l with
  | nil => simp [upsert, containsKey, lookup]
  | cons q rest ih =>
      obtain ⟨k', v'⟩ := q
      by_cases hk : k' = k
      · simp [upsert, hk, containsKey, lookup]
      · simpa [upsert, hk, containsKey, lookup] using ih

theorem mem_purgeUser {uid : String} {p : String × List String}
    {subs : List (String × List String)} (h : p ∈ ConnectionManager.purgeUser uid subs) :
    p.2 ≠ [] := by
  induction subs with
  | nil => simp [ConnectionManager.purgeUser] at h
  | cons q rest ih =>
      obtain ⟨room, users⟩ := q
      by_cases he : users.erase uid = []
      · simp [ConnectionManager.purgeUser, he] at h
        exact ih h
      · simp [ConnectionManager.purgeUser, he] at h
        rcases h with h | h
        · rw [h]
          exact he
        · exact ih h

theorem setAdd_ne_nil {a : α} {l : List α} : setAdd a l ≠ [] := by
  by_cases h : a ∈ l
  · simp [setAdd, h]
    rintro rfl
    simp at h
  · simp [setAdd, h]

theorem mem_setAdd {a b : α} {l : List α} : b ∈ setAdd a l ↔ b ∈ l ∨ b = a := by
  by_cases h : a ∈ l
  · simp [setAdd, h]
    intro hb
    subst hb
    exact h
  · simp [setAdd, h]

theorem nodup_setAdd {a : α} {l : List α} (h : l.Nodup) : (setAdd a l).Nodup := by
  by_cases ha : a ∈ l
  · simpa [setAdd, ha] using h
  · simp [setAdd, ha]
    exact List.Nodup.append h (List.nodup_singleton a) (by simpa using ha)

end MapLemmas

section OpLemmas

open ConnectionManager Router

theorem connect_subs (ws : Nat) (uid : String) (t : Nat) (σ : CMState) :
    (connect ws uid t σ).chatroom_subscriptions = σ.chatroom_subscriptions := rfl

theorem connect_active (ws : Nat) (uid : String) (t : Nat) (σ : CMState) :
    (connect ws uid t σ).active_connections
      = upsert uid (lookupD uid [] σ.active_connections ++ [ws]) σ.active_connections := rfl

theorem connect_presence (ws : Nat) (uid : String) (t : Nat) (σ : CMState) :
    (connect ws uid t σ).user_presence = upsert uid t σ.user_presence := rfl

theorem join_active (uid room : String) (σ : CMState) :
    (join_chatroom uid room σ).active_connections = σ.active_connections := rfl

theorem join_presence (uid room : String) (σ : CMState) :
    (join_chatroom uid room σ).user_presence = σ.user_presence := rfl

theorem join_subs (uid room : String) (σ : CMState) :
    (join_chatroom uid room σ).chatroom_subscriptions
      = upsert room (setAdd uid (lookupD room [] σ.chatroom_subscriptions))
          σ.chatroom_subscriptions := rfl

theorem leave_active (uid room : String) (σ : CMState) :
    (leave_chatroom uid room σ).active_connections = σ.active_connections := by
  unfold leave_chatroom
  split
  · rfl
  · dsimp only
    split <;> rfl

theorem leave_presence (uid room : String) (σ : CMState) :
    (leave_chatroom uid room σ).user_presence = σ.user_presence := by
  unfold leave_chatroom
  split
  · rfl
  · dsimp only
    split <;> rfl

theorem stampOffline_active (uid : String) (t : Nat) (σ : CMState) :
    (stampOffline uid t σ).active_connections = σ.active_connections := by
  unfold stampOffline
  split <;> rfl

theorem stampOffline_subs (uid : String) (t : Nat) (σ : CMState) :
    (stampOffline uid t σ).chatroom_subscriptions = σ.chatroom_subscriptions := by
  unfold stampOffline
  split <;> rfl

theorem stampOffline_meta (uid : String) (t : Nat) (σ : CMState) :
    (stampOffline uid t σ).connection_metadata = σ.connection_metadata := by
  unfold stampOffline
  split <;> rfl

theorem stampOffline_presence (uid : String) (t : Nat) (σ : CMState) :
    (stampOffline uid t σ).user_presence
      = if containsKey uid σ.active_connections then σ.user_presence
        else upsert uid t σ.user_presence := by
  unfold stampOffline
  split <;> simp [*]

theorem disconnectCore_meta (ws : Nat) (uid : String) (σ : CMState) :
    (disconnectCore ws uid σ).connection_metadata = σ.connection_metadata := by
  unfold disconnectCore
  split
  · rfl
  · dsimp only
    split <;> rfl

theorem disconnectCore_presence (ws : Nat) (uid : String) (σ : CMState) :
    (disconnectCore ws uid σ).user_presence = σ.user_presence := by
  unfold disconnectCore
  split
  · rfl
  · dsimp only
    split <;> rfl

/-- Case anatomy of the registry/subscription phase of `disconnect`. -/
theorem disconnectCore_cases (ws : Nat) (uid : String) (σ : CMState) :
    (lookup uid σ.active_connections = none ∧ disconnectCore ws uid σ = σ) ∨
    (∃ conns, lookup uid σ.active_connections = some conns ∧
      ((conns.erase ws = [] ∧ disconnectCore ws uid σ =
          { σ with
            active_connections := eraseKey uid σ.active_connections
            chatroom_subscriptions := purgeUser uid σ.chatroom_subscriptions }) ∨
       (conns.erase ws ≠ [] ∧ disconnectCore ws uid σ =
          { σ with active_connections := upsert uid (conns.erase ws) σ.active_connections }))) := by
  cases hl : lookup uid σ.active_connections with
  | none => exact Or.inl ⟨rfl, by simp [disconnectCore, hl]⟩
  | some conns =>
      by_cases he : conns.erase ws = []
      · exact Or.inr ⟨conns, rfl, Or.inl ⟨he, by simp [disconnectCore, hl, he]⟩⟩
      · exact Or.inr ⟨conns, rfl, Or.inr ⟨he, by simp [disconnectCore, hl, he]⟩⟩

theorem disconnect_active (ws : Nat) (uid : String) (t : Nat) (σ : CMState) :
    (disconnect ws uid t σ).active_connections = (disconnectCore ws uid σ).active_connections := by
  unfold disconnect
  rw [stampOffline_active]

theorem disconnect_subs (ws : Nat) (uid : String) (t : Nat) (σ : CMState) :
    (disconnect ws uid t σ).chatroom_subscriptions
      = (disconnectCore ws uid σ).chatroom_subscriptions := by
  unfold disconnect
  rw [stampOffline_subs]

theorem disconnect_meta (ws : Nat) (uid : String) (t : Nat) (σ : CMState) :
    (disconnect ws uid t σ).connection_metadata = eraseKey ws σ.connection_metadata := by
  unfold disconnect
  rw [stampOffline_meta]
  dsimp only
  rw [disconnectCore_meta]

/-- Case anatomy of `disconnect` on the registry and the subscription index:
either the user had no registry entry (both unchanged), or their connection
list emptied (entry deleted, subscriptions purged), or it did not (entry
rewritten, subscriptions unchanged). -/
theorem disconnect_cases (ws : Nat) (uid : String) (t : Nat) (σ : CMState) :
    (lookup uid σ.active_connections = none ∧
      (disconnect ws uid t σ).active_connections = σ.active_connections ∧
      (disconnect ws uid t σ).chatroom_subscriptions = σ.chatroom_subscriptions) ∨
    (∃ conns, lookup uid σ.active_connections = some conns ∧
      ((conns.erase ws = [] ∧
        (disconnect ws uid t σ).active_connections = eraseKey uid σ.active_connections ∧
        (disconnect ws uid t σ).chatroom_subscriptions = purgeUser uid σ.chatroom_subscriptions) ∨
       (conns.erase ws ≠ [] ∧
        (disconnect ws uid t σ).active_connections
          = upsert uid (conns.erase ws) σ.active_connections ∧
        (disconnect ws uid t σ).chatroom_subscriptions = σ.chatroom_subscriptions))) := by
  rcases disconnectCore_cases ws uid σ with ⟨hl, hc⟩ | ⟨conns, hl, ⟨he, hc⟩ | ⟨he, hc⟩⟩
  · exact Or.inl ⟨hl, by rw [disconnect_active, hc], by rw [disconnect_subs, hc]⟩
  · exact Or.inr ⟨conns, hl, Or.inl ⟨he,
      by rw [disconnect_active, hc], by rw [disconnect_subs, hc]⟩⟩
  · exact Or.inr ⟨conns, hl, Or.inr ⟨he,
      by rw [disconnect_active, hc], by rw [disconnect_subs, hc]⟩⟩

/-- `disconnect` stamps `last_seen` exactly when the user ends up with no
registry entry; otherwise the presence map is untouched. -/
theorem disconnect_presence (ws : Nat) (uid : String) (t : Nat) (σ : CMState) :
    (disconnect ws uid t σ).user_presence
      = if containsKey uid (disconnect ws uid t σ).active_connections then σ.user_presence
        else upsert uid t σ.user_presence := by
  conv_lhs => rw [disconnect]
  rw [stampOffline_presence]
  rw [disconnect_active]
  dsimp only
  rw [disconnectCore_presence]

theorem inv_of_parts {σ σ' : CMState}
    (ha : σ'.active_connections = σ.active_connections)
    (hs : σ'.chatroom_subscriptions = σ.chatroom_subscriptions)
    (h : Inv σ) : Inv σ' := by
  unfold Inv at h ⊢
  rw [ha, hs]
  exact h

theorem inv_connect {σ : CMState} (h : Inv σ) (ws : Nat) (uid : String) (t : Nat) :
    Inv (connect ws uid t σ) := by
  obtain ⟨hs, ha⟩ := h
  refine ⟨by rw [connect_subs]; exact hs, ?_⟩
  rw [connect_active]
  intro p hp
  rcases mem_upsert hp with rfl | hp'
  · simp
  · exact ha _ hp'

theorem inv_disconnect {σ : CMState} (h : Inv σ) (ws : Nat) (uid : String) (t : Nat) :
    Inv (disconnect ws uid t σ) := by
  obtain ⟨hs, ha⟩ := h
  rcases disconnect_cases ws uid t σ with ⟨_, hA, hS⟩ | ⟨conns, _, ⟨_, hA, hS⟩ | ⟨hne, hA, hS⟩⟩
  · exact ⟨by rw [hS]; exact hs, by rw [hA]; exact ha⟩
  · refine ⟨?_, ?_⟩
    · rw [hS]
      intro p hp
      exact mem_purgeUser hp
    · rw [hA]
      intro p hp
      exact ha _ (mem_eraseKey hp)
  · refine ⟨by rw [hS]; exact hs, ?_⟩
    rw [hA]
    intro p hp
    rcases mem_upsert hp with rfl | hp'
    · exact hne
    · exact ha _ hp'

theorem inv_join {σ : CMState} (h : Inv σ) (uid room : String) :
    Inv (join_chatroom uid room σ) := by
  obtain ⟨hs, ha⟩ := h
  refine ⟨?_, by rw [join_active]; exact ha⟩
  rw [join_subs]
  intro p hp
  rcases mem_upsert hp with rfl | hp'
  · exact setAdd_ne_nil
  · exact hs _ hp'

theorem inv_leave {σ : CMState} (h : Inv σ) (uid room : String) :
    Inv (leave_chatroom uid room σ) := by
  obtain ⟨hs, ha⟩ := h
  refine ⟨?_, by rw [leave_active]; exact ha⟩
  unfold leave_chatroom
  cases hl : lookup room σ.chatroom_subscriptions with
  | none => exact hs
  | some users =>
      by_cases he : users.erase uid = []
      · simp only [he, if_pos rfl]
        intro p hp
        exact hs _ (mem_eraseKey hp)
      · simp only [if_neg he]
        intro p hp
        rcases mem_upsert hp with rfl | hp'
        · exact he
        · exact hs _ hp'

theorem inv_disconnectAll {uid : String} {t : Nat} :
    ∀ {l : List Nat} {σ : CMState}, Inv σ → Inv (disconnectAll uid t l σ)
  | [], _, h => h
  | _ :: rest, _, h =>
      inv_disconnectAll (l := rest) (inv_disconnect h _ uid t)

/-- The send loop touches only `connection_metadata`: the registry, the
subscription index and the presence map pass through unchanged. -/
theorem sendLoop_parts (msg : OutMsg) (uid : String) (broken : List Nat) (t : Nat) :
    ∀ (conns : List Nat) (σ : CMState) (ds : List Delivery) (bad : List Nat),
      (sendLoop msg uid broken t conns σ ds bad).1.active_connections = σ.active_connections ∧
      (sendLoop msg uid broken t conns σ ds bad).1.chatroom_subscriptions
        = σ.chatroom_subscriptions ∧
      (sendLoop msg uid broken t conns σ ds bad).1.user_presence = σ.user_presence
  | [], σ, ds, bad => ⟨rfl, rfl, rfl⟩
  | c :: rest, σ, ds, bad => by
      by_cases hc : c ∈ broken
      · simpa [sendLoop, hc] using sendLoop_parts msg uid broken t rest σ ds (bad ++ [c])
      · simpa [sendLoop, hc] using sendLoop_parts msg uid broken t rest _ _ bad

theorem inv_send {σ : CMState} (h : Inv σ) (msg : OutMsg) (uid : String)
    (broken : List Nat) (t : Nat) : Inv (send_personal_message msg uid broken t σ).1 := by
  unfold send_personal_message
  cases hl : lookup uid σ.active_connections with
  | none => exact h
  | some conns =>
      dsimp only
      apply inv_disconnectAll
      obtain ⟨hA, hS, _⟩ := sendLoop_parts msg uid broken t conns σ [] []
      exact inv_of_parts hA hS h

theorem inv_roomLoop (msg : OutMsg) (exclude : Option String) (broken : List Nat) (t : Nat) :
    ∀ (users : List String) (σ : CMState) (ds : List Delivery), Inv σ →
      Inv (roomLoop msg exclude broken t users σ ds).1
  | [], σ, ds, h => h
  | u :: rest, σ, ds, h => by
      by_cases hx : excluded exclude u
      · simpa [roomLoop, hx] using inv_roomLoop msg exclude broken t rest σ ds h
      · by_cases hc : containsKey u σ.active_connections
        · simpa [roomLoop, hx, hc] using
            inv_roomLoop msg exclude broken t rest _ _ (inv_send h msg u broken t)
        · simpa [roomLoop, hx, hc] using inv_roomLoop msg exclude broken t rest σ ds h

theorem inv_broadcastRoom {σ : CMState} (h : Inv σ) (msg : OutMsg) (room : String)
    (exclude : Option String) (broken : List Nat) (t : Nat) :
    Inv (broadcast_to_chatroom msg room exclude broken t σ).1 := by
  unfold broadcast_to_chatroom
  cases lookup room σ.chatroom_subscriptions with
  | none => exact h
  | some users => exact inv_roomLoop msg exclude broken t users σ [] h

theorem inv_broadcastStatus {σ : CMState} (h : Inv σ) (uid status : String)
    (broken : List Nat) (t : Nat) : Inv (broadcast_user_status uid status broken t σ).1 :=
  inv_roomLoop _ none broken t _ σ [] h

theorem inv_reapLoop (t : Nat) :
    ∀ (stale : List (Nat × String)) (σ : CMState), Inv σ → Inv (reapLoop t stale σ)
  | [], σ, h => h
  | p :: rest, σ, h => by
      by_cases hc : σ.active_connections.any (fun e => p.1 ∈ e.2)
      · simpa [reapLoop, hc] using inv_reapLoop t rest _ (inv_disconnect h p.1 p.2 t)
      · simpa [reapLoop, hc] using inv_reapLoop t rest σ h

theorem inv_cleanup {σ : CMState} (h : Inv σ) (t maxIdle : Nat) :
    Inv (cleanup_stale_connections t maxIdle σ) :=
  inv_reapLoop t _ σ h

theorem inv_applyOp {σ : CMState} (h : Inv σ) (op : Op) : Inv (applyOp op σ) := by
  cases op with
  | connect ws uid t => exact inv_connect h ws uid t
  | disconnect ws uid t => exact inv_disconnect h ws uid t
  | join uid room => exact inv_join h uid room
  | leave uid room => exact inv_leave h uid room
  | deliver msg uid broken t => exact inv_send h msg uid broken t
  | broadcastRoom msg room exclude broken t => exact inv_broadcastRoom h msg room exclude broken t
  | broadcastStatus uid status broken t => exact inv_broadcastStatus h uid status broken t
  | reap t maxIdle => exact inv_cleanup h t maxIdle

theorem inv_applyOps : ∀ (ops : List Op) {σ : CMState}, Inv σ → Inv (applyOps ops σ)
  | [], _, h => h
  | op :: rest, _, h => inv_applyOps rest (inv_applyOp h op)

theorem inv_init : Inv CMState.init := by
  constructor <;> simp [CMState.init]

/-- Under the invariant, `is_user_online` coincides with a positive
connection count. -/
theorem online_iff_count {σ : CMState} (h : Inv σ) (uid : String) :
    is_user_online uid σ = true ↔ 0 < get_user_connection_count uid σ := by
  unfold is_user_online get_user_connection_count containsKey lookupD
  cases hl : lookup uid σ.active_connections with
  | none => simp
  | some conns =>
      simp only [Option.isSome_some, Option.getD_some, true_iff]
      have := h.2 _ (lookup_mem hl)
      exact List.length_pos.mpr this

end OpLemmas

section DeliveryLemmas

open ConnectionManager Router

/-- With no failing connection, the send loop delivers to every connection
in order and collects no failures. -/
theorem sendLoop_nil_broken (msg : OutMsg) (uid : String) (t : Nat) (conns : List Nat) :
    ∀ (σ : CMState) (ds : List Delivery) (bad : List Nat),
      (sendLoop msg uid [] t conns σ ds bad).2.1
          = ds ++ conns.map (fun c => Delivery.mk c uid msg) ∧
      (sendLoop msg uid [] t conns σ ds bad).2.2 = bad := by
  induction conns with
  | nil => intro σ ds bad; simp [sendLoop]
  | cons c rest ih =>
      intro σ ds bad
      have h := ih { σ with connection_metadata := touchActivity c t σ.connection_metadata }
        (ds ++ [⟨c, uid, msg⟩]) bad
      simp only [sendLoop, List.not_mem_nil, if_false]
      simp [h.1, h.2]

/-- With no failing connection, `send_personal_message` delivers once to
each of the user's connections, in list order. -/
theorem send_nil_broken_ds (msg : OutMsg) (uid : String) (t : Nat) (σ : CMState) :
    (send_personal_message msg uid [] t σ).2.1
      = (lookupD uid [] σ.active_connections).map (fun c => Delivery.mk c uid msg) := by
  unfold send_personal_message
  cases hl : lookup uid σ.active_connections with
  | none => simp [lookupD, hl]
  | some conns =>
      dsimp only
      obtain ⟨h1, _⟩ := sendLoop_nil_broken msg uid t conns σ [] []
      simp [lookupD, hl, h1]

/-- With no failing connection, `send_personal_message` changes only the
metadata map. -/
theorem send_nil_broken_state (msg : OutMsg) (uid : String) (t : Nat) (σ : CMState) :
    (send_personal_message msg uid [] t σ).1.active_connections = σ.active_connections ∧
    (send_personal_message msg uid [] t σ).1.chatroom_subscriptions
      = σ.chatroom_subscriptions ∧
    (send_personal_message msg uid [] t σ).1.user_presence = σ.user_presence := by
  unfold send_personal_message
  cases hl : lookup uid σ.active_connections with
  | none => simp
  | some conns =>
      dsimp only
      have h2 := (sendLoop_nil_broken msg uid t conns σ [] []).2
      rw [h2]
      simpa [disconnectAll] using sendLoop_parts msg uid [] t conns σ [] []

/-- Membership characterization of the per-user broadcast loop with no
failing connection: a delivery is produced exactly for each connection of
each listed, non-excluded, registered user. -/
theorem roomLoop_mem_nil_broken (msg : OutMsg) (exclude : Option String) (t : Nat)
    (users : List String) :
    ∀ (σ : CMState) (ds : List Delivery) (d : Delivery),
      d ∈ (roomLoop msg exclude [] t users σ ds).2 ↔
        d ∈ ds ∨ (d.msg = msg ∧ d.user ∈ users ∧ excluded exclude d.user = false ∧
          ∃ cs, lookup d.user σ.active_connections = some cs ∧ d.conn ∈ cs) := by
  induction users with
  | nil => intro σ ds d; simp [roomLoop]
  | cons u rest ih =>
      intro σ ds d
      by_cases hx : excluded exclude u = true
      · have hstep : roomLoop msg exclude [] t (u :: rest) σ ds
            = roomLoop msg exclude [] t rest σ ds := by
          simp [roomLoop, hx]
        rw [hstep, ih]
        constructor
        · rintro (h | ⟨hm, hu, he, hcs⟩)
          · exact Or.inl h
          · exact Or.inr ⟨hm, List.mem_cons_of_mem _ hu, he, hcs⟩
        · rintro (h | ⟨hm, hu, he, hcs⟩)
          · exact Or.inl h
          · rcases List.mem_cons.mp hu with h' | hu'
            · rw [h'] at he
              rw [he] at hx
              cases hx
            · exact Or.inr ⟨hm, hu', he, hcs⟩
      · replace hx : excluded exclude u = false := by
          cases hxx : excluded exclude u
          · rfl
          · exact absurd hxx hx
        by_cases hc : containsKey u σ.active_connections = true
        · have hstep : roomLoop msg exclude [] t (u :: rest) σ ds
              = roomLoop msg exclude [] t rest (send_personal_message msg u [] t σ).1
                  (ds ++ (send_personal_message msg u [] t σ).2.1) := by
            simp [roomLoop, hx, hc]
          obtain ⟨cs, hl⟩ := Option.isSome_iff_exists.mp hc
          obtain ⟨hA, _, _⟩ := send_nil_broken_state msg u t σ
          rw [hstep, ih, hA, send_nil_broken_ds]
          rw [show lookupD u [] σ.active_connections = cs from by simp [lookupD, hl]]
          constructor
          · rintro (h | ⟨hm, hu, he, hcs⟩)
            · rcases List.mem_append.mp h with h' | h'
              · exact Or.inl h'
              · obtain ⟨c, hcmem, hce⟩ := List.mem_map.mp h'
                subst hce
                exact Or.inr ⟨rfl, List.mem_cons_self u rest, hx, cs, hl, hcmem⟩
            · exact Or.inr ⟨hm, List.mem_cons_of_mem _ hu, he, hcs⟩
          · rintro (h | ⟨hm, hu, he, hcs⟩)
            · exact Or.inl (List.mem_append.mpr (Or.inl h))
            · rcases List.mem_cons.mp hu with h' | hu'
              · obtain ⟨cs', hl', hconn⟩ := hcs
                rw [h'] at hl'
                rw [hl] at hl'
                obtain rfl : cs = cs' := by injection hl'
                refine Or.inl (List.mem_append.mpr (Or.inr ?_))
                refine List.mem_map.mpr ⟨d.conn, hconn, ?_⟩
                cases d
                simp at h' hm
                simp [h', hm]
              · exact Or.inr ⟨hm, hu', he, hcs⟩
        · replace hc : containsKey u σ.active_connections = false := by
            cases hcc : containsKey u σ.active_connections
            · rfl
            · exact absurd hcc hc
          have hstep : roomLoop msg exclude [] t (u :: rest) σ ds
              = roomLoop msg exclude [] t rest σ ds := by
            simp [roomLoop, hx, hc]
          rw [hstep, ih]
          constructor
          · rintro (h | ⟨hm, hu, he, hcs⟩)
            · exact Or.inl h
            · exact Or.inr ⟨hm, List.mem_cons_of_mem _ hu, he, hcs⟩
          · rintro (h | ⟨hm, hu, he, hcs⟩)
            · exact Or.inl h
            · rcases List.mem_cons.mp hu with h' | hu'
              · obtain ⟨cs', hl', _⟩ := hcs
                rw [h'] at hl'
                rw [containsKey, hl'] at hc
                cases hc
              · exact Or.inr ⟨hm, hu', he, hcs⟩

theorem mem_foldl_setAdd (l : List String) :
    ∀ (A : List String) (u : String),
      u ∈ l.foldl (fun a v => setAdd v a) A ↔ u ∈ A ∨ u ∈ l := by
  induction l with
  | nil => simp
  | cons x rest ih =>
      intro A u
      simp only [List.foldl_cons]
      rw [ih]
      rw [mem_setAdd]
      simp only [List.mem_cons]
      tauto

theorem nodup_foldl_setAdd (l : List String) :
    ∀ A : List String, A.Nodup → (l.foldl (fun a v => setAdd v a) A).Nodup := by
  induction l with
  | nil => intro A h; simpa using h
  | cons x rest ih =>
      intro A h
      simp only [List.foldl_cons]
      exact ih _ (nodup_setAdd h)

theorem mem_unionFold (uid : String) (subs : List (String × List String)) :
    ∀ (A : List String) (u : String),
      u ∈ subs.foldl
          (fun acc p => if uid ∈ p.2 then p.2.foldl (fun a v => setAdd v a) acc else acc) A
        ↔ u ∈ A ∨ ∃ p ∈ subs, uid ∈ p.2 ∧ u ∈ p.2 := by
  induction subs with
  | nil => simp
  | cons q rest ih =>
      intro A u
      simp only [List.foldl_cons]
      by_cases hq : uid ∈ q.2
      · rw [if_pos hq, ih, mem_foldl_setAdd]
        simp only [List.mem_cons]
        constructor
        · rintro ((h | h) | ⟨p, hp, h1, h2⟩)
          · exact Or.inl h
          · exact Or.inr ⟨q, Or.inl rfl, hq, h⟩
          · exact Or.inr ⟨p, Or.inr hp, h1, h2⟩
        · rintro (h | ⟨p, hp | hp, h1, h2⟩)
          · exact Or.inl (Or.inl h)
          · rw [hp] at h2
            exact Or.inl (Or.inr h2)
          · exact Or.inr ⟨p, hp, h1, h2⟩
      · rw [if_neg hq, ih]
        simp only [List.mem_cons]
        constructor
        · rintro (h | ⟨p, hp, h1, h2⟩)
          · exact Or.inl h
          · exact Or.inr ⟨p, Or.inr hp, h1, h2⟩
        · rintro (h | ⟨p, hp | hp, h1, h2⟩)
          · exact Or.inl h
          · rw [hp] at h1
            exact absurd h1 hq
          · exact Or.inr ⟨p, hp, h1, h2⟩

theorem nodup_unionFold (uid : String) (subs : List (String × List String)) :
    ∀ A : List String, A.Nodup →
      (subs.foldl
        (fun acc p => if uid ∈ p.2 then p.2.foldl (fun a v => setAdd v a) acc else acc) A).Nodup := by
  induction subs with
  | nil => intro A h; simpa using h
  | cons q rest ih =>
      intro A h
      simp only [List.foldl_cons]
      by_cases hq : uid ∈ q.2
      · rw [if_pos hq]
        exact ih _ (nodup_foldl_setAdd _ _ h)
      · rw [if_neg hq]
        exact ih _ h

/-- The `relevant_users` set of `broadcast_user_status` contains exactly the
users other than `uid` that share at least one chatroom with `uid`. -/
theorem mem_relevantUsers (uid u : String) (subs : List (String × List String)) :
    u ∈ relevantUsers uid subs ↔ u ≠ uid ∧ ∃ p ∈ subs, uid ∈ p.2 ∧ u ∈ p.2 := by
  unfold relevantUsers
  rw [List.Nodup.mem_erase_iff (nodup_unionFold uid subs [] List.nodup_nil)]
  rw [mem_unionFold]
  simp

/-- Membership characterization of `broadcast_user_status` deliveries with
no failing connection. -/
theorem status_mem (uid status : String) (t : Nat) (σ : CMState) (d : Delivery) :
    d ∈ (broadcast_user_status uid status [] t σ).2 ↔
      d.msg = .userStatus status uid t ∧
      d.user ∈ relevantUsers uid σ.chatroom_subscriptions ∧
      ∃ cs, lookup d.user σ.active_connections = some cs ∧ d.conn ∈ cs := by
  unfold broadcast_user_status
  rw [roomLoop_mem_nil_broken]
  simp [excluded]

end DeliveryLemmas

section ClaimTheorems

open ConnectionManager Router

/--
C10: after every sequence of registry and subscription operations (connect,
disconnect, join, leave, delivery with failure cleanup, broadcasts, idle
reaping) from the initial state, every chatroom key present in the
subscription index maps to a non-empty member set and every user key
present in the connection registry maps to a non-empty connection list;
consequently `is_user_online(user)` is true iff the registry holds at least
one connection for that user.
-/
theorem registry_index_nonempty_invariant (ops : List Op) (uid : String) :
    Inv (applyOps ops CMState.init) ∧
      (is_user_online uid (applyOps ops CMState.init) = true
        ↔ 0 < get_user_connection_count uid (applyOps ops CMState.init)) :=
  have h := inv_applyOps ops inv_init
  ⟨h, online_iff_count h uid⟩

/--
C4 (amended): the connect phase of the endpoint attempts a `user_online`
broadcast after every connection registration (not only the first), and its
recipients are exactly the currently-online users other than the connecting
user that share at least one chatroom with them at that moment.
-/
theorem user_online_broadcast_targets (σ : CMState) (ws : Nat) (uid username u : String)
    (t : Nat) (h : Inv σ) :
    (∃ d ∈ (endpointConnect ws uid username [] t σ).2,
        d.user = u ∧ d.msg = OutMsg.userStatus "online" uid t)
      ↔ (u ≠ uid ∧ is_user_online u (connect ws uid t σ) = true ∧
          sharesRoom uid u (connect ws uid t σ)) := by
  unfold endpointConnect
  dsimp only
  constructor
  · rintro ⟨d, hd, hdu, hdm⟩
    rcases List.mem_cons.mp hd with h' | h'
    · rw [h'] at hdm
      simp at hdm
    · obtain ⟨hmsg, hrel, cs, hl, hc⟩ := (status_mem uid "online" t _ d).mp h'
      rw [hdu] at hrel hl
      obtain ⟨hne, hshare⟩ := (mem_relevantUsers uid u _).mp hrel
      refine ⟨hne, ?_, hshare⟩
      unfold is_user_online containsKey
      rw [hl]
      rfl
  · rintro ⟨hne, honline, hshare⟩
    unfold is_user_online containsKey at honline
    obtain ⟨cs, hl⟩ := Option.isSome_iff_exists.mp honline
    have hcs : cs ≠ [] := (inv_connect h ws uid t).2 _ (lookup_mem hl)
    obtain ⟨c, hc⟩ := List.exists_mem_of_ne_nil cs hcs
    refine ⟨⟨c, u, OutMsg.userStatus "online" uid t⟩, ?_, rfl, rfl⟩
    refine List.mem_cons_of_mem _ ((status_mem uid "online" t _ _).mpr ⟨rfl, ?_, cs, ?_, hc⟩)
    · exact (mem_relevantUsers uid u _).mpr ⟨hne, hshare⟩
    · exact hl

/-- Witness for C4's amended theorem at a concrete state: `"u"` is already
online and shares room `"A"` with the online `"v"`; registering a second
connection for `"u"` delivers `user_online` to `"v"`. -/
theorem user_online_broadcast_targets_witness :
    ∃ d ∈ (endpointConnect 2 "u" "U" [] 20 c4State).2,
      d.user = "v" ∧ d.msg = OutMsg.userStatus "online" "u" 20 :=
  (user_online_broadcast_targets c4State 2 "u" "U" "v" 20 (by decide)).mpr (by decide)

/--
C4 counterexample: `"u"` is already online (connection 1); registering the
second simultaneous connection 2 still emits a `user_online` broadcast,
which reaches `"v"` — refuting "registering a second simultaneous
connection for an already-online user emits no `user_online`".
-/
theorem second_connection_emits_user_online :
    is_user_online "u" c4State = true ∧
    (endpointConnect 2 "u" "U" [] 20 c4State).2.filter
        (fun d => d.msg == OutMsg.userStatus "online" "u" 20)
      = [⟨3, "v", OutMsg.userStatus "online" "u" 20⟩] := by
  decide

/--
C2 (amended): every frame decoded as a JSON envelope — whatever its event
string or payload — leaves the connection ACTIVE (handler errors are caught
inside the handlers, unknown events are logged and ignored), but a frame
that `json.loads` cannot decode escapes the receive loop and the connection
ends CLOSED (code 4000, cleanup, offline broadcast).
-/
theorem envelope_frames_keep_connection_active
    (ws : Nat) (uid username : String) (isMember : Membership) (ev : Option String)
    (data : EventData) (broken : List Nat) (t : Nat) (σ : CMState) :
    (Router.routerStep ws uid username isMember (.envelope ev data) broken t σ).1
        = ConnState.active ∧
    (Router.routerStep ws uid username isMember .malformed broken t σ).1
        = ConnState.closed := by
  refine ⟨?_, rfl⟩
  unfold Router.routerStep
  dsimp only
  split <;> rfl

/--
C2 counterexample: a malformed inbound frame on an ACTIVE connection does
not leave it ACTIVE — the exception from `json.loads` escapes the receive
loop and the endpoint closes the connection.
-/
theorem malformed_frame_not_active :
    (Router.routerStep 1 "u" "U" allMember Frame.malformed [] 5 c2State).1
      ≠ ConnState.active := by
  decide

/--
C9: with users `A ≠ B` both joined to room `"general"` (one live connection
each) and `A` authorized for the room, `A`'s `send_message` with content
`"hi"` delivers exactly one `message_received` envelope with that content
and `user_id = A` to `B`, and exactly one to `A` itself (self-inclusive
fan-out).
-/
theorem send_message_fanout_exactly_once
    (A B uA : String) (ca cb t : Nat) (isMember : Membership)
    (pres : List (String × Nat)) (meta : List (Nat × ConnMeta))
    (hAB : A ≠ B) (hM : isMember A "general" = true) :
    ((Router.handle_send_message A uA isMember
        { chatroom_id := some "general", content := some "hi" } [] t
        { active_connections := [(A, [ca]), (B, [cb])]
          chatroom_subscriptions := [("general", [A, B])]
          user_presence := pres, connection_metadata := meta }).deliveries.countP
        (receivesMsgFrom B "hi" A) = 1) ∧
    ((Router.handle_send_message A uA isMember
        { chatroom_id := some "general", content := some "hi" } [] t
        { active_connections := [(A, [ca]), (B, [cb])]
          chatroom_subscriptions := [("general", [A, B])]
          user_presence := pres, connection_metadata := meta }).deliveries.countP
        (receivesMsgFrom A "hi" A) = 1) := by
  have hds : (Router.handle_send_message A uA isMember
        { chatroom_id := some "general", content := some "hi" } [] t
        { active_connections := [(A, [ca]), (B, [cb])]
          chatroom_subscriptions := [("general", [A, B])]
          user_presence := pres, connection_metadata := meta }).deliveries
      = [⟨ca, A, .messageReceived (mkMessage A uA "general" "hi" "text" none t)⟩,
         ⟨cb, B, .messageReceived (mkMessage A uA "general" "hi" "text" none t)⟩] := by
    simp [Router.handle_send_message, falsy, hM, broadcast_to_chatroom, lookup, roomLoop,
      excluded, containsKey, send_personal_message, sendLoop, disconnectAll, lookupD, hAB]
  rw [hds]
  simp [List.countP_cons, receivesMsgFrom, mkMessage, hAB, Ne.symm hAB]

/-- Witness for C9 at concrete users and connections. -/
theorem send_message_fanout_exactly_once_witness :
    ((Router.handle_send_message "a" "A" allMember
        { chatroom_id := some "general", content := some "hi" } [] 7
        { active_connections := [("a", [1]), ("b", [2])]
          chatroom_subscriptions := [("general", ["a", "b"])]
          user_presence := [], connection_metadata := [] }).deliveries.countP
        (receivesMsgFrom "b" "hi" "a") = 1) ∧
    ((Router.handle_send_message "a" "A" allMember
        { chatroom_id := some "general", content := some "hi" } [] 7
        { active_connections := [("a", [1]), ("b", [2])]
          chatroom_subscriptions := [("general", ["a", "b"])]
          user_presence := [], connection_metadata := [] }).deliveries.countP
        (receivesMsgFrom "a" "hi" "a") = 1) :=
  send_message_fanout_exactly_once "a" "b" "A" 1 2 7 allMember [] []
    (by decide) (by decide)

/--
C3 (amended): with two registered connections of which the first is broken,
`send_personal_message` still delivers to the remaining live connection,
removes the broken connection from the registry and the metadata map
(leaving subscriptions and presence untouched), and completes without
error — but the Python function has no return value (`None`, embedded as
`none`), so no `delivered_count` int is returned.
-/
theorem deliver_isolation_returns_none
    (U : String) (c1 c2 t : Nat) (msg : OutMsg)
    (S : List (String × List String)) (P : List (String × Nat)) (m1 m2 : ConnMeta)
    (h12 : c1 ≠ c2) :
    ((send_personal_message msg U [c1] t ⟨[(U, [c1, c2])], S, P, [(c1, m1), (c2, m2)]⟩).2.1
        = [⟨c2, U, msg⟩]) ∧
    ((send_personal_message msg U [c1] t ⟨[(U, [c1, c2])], S, P, [(c1, m1), (c2, m2)]⟩).2.2
        = none) ∧
    ((send_personal_message msg U [c1] t
        ⟨[(U, [c1, c2])], S, P, [(c1, m1), (c2, m2)]⟩).1.active_connections
        = [(U, [c2])]) ∧
    ((send_personal_message msg U [c1] t
        ⟨[(U, [c1, c2])], S, P, [(c1, m1), (c2, m2)]⟩).1.chatroom_subscriptions = S) ∧
    ((send_personal_message msg U [c1] t
        ⟨[(U, [c1, c2])], S, P, [(c1, m1), (c2, m2)]⟩).1.user_presence = P) ∧
    (containsKey c1 (send_personal_message msg U [c1] t
        ⟨[(U, [c1, c2])], S, P, [(c1, m1), (c2, m2)]⟩).1.connection_metadata = false) := by
  simp [send_personal_message, sendLoop, disconnectAll, disconnect, disconnectCore,
    stampOffline, lookup, lookupD, containsKey, touchActivity, eraseKey, upsert,
    h12, Ne.symm h12]

/-- Witness for C3's amended theorem at concrete values. -/
theorem deliver_isolation_returns_none_witness :
    ((send_personal_message (OutMsg.pong 9) "u" [1] 9
        ⟨[("u", [1, 2])], [], [], [(1, ⟨"u", 0, 0⟩), (2, ⟨"u", 0, 0⟩)]⟩).2.1
        = [⟨2, "u", OutMsg.pong 9⟩]) ∧
    ((send_personal_message (OutMsg.pong 9) "u" [1] 9
        ⟨[("u", [1, 2])], [], [], [(1, ⟨"u", 0, 0⟩), (2, ⟨"u", 0, 0⟩)]⟩).2.2 = none) ∧
    ((send_personal_message (OutMsg.pong 9) "u" [1] 9
        ⟨[("u", [1, 2])], [], [], [(1, ⟨"u", 0, 0⟩), (2, ⟨"u", 0, 0⟩)]⟩).1.active_connections
        = [("u", [2])]) ∧
    ((send_personal_message (OutMsg.pong 9) "u" [1] 9
        ⟨[("u", [1, 2])], [], [], [(1, ⟨"u", 0, 0⟩), (2, ⟨"u", 0, 0⟩)]⟩).1.chatroom_subscriptions
        = []) ∧
    ((send_personal_message (OutMsg.pong 9) "u" [1] 9
        ⟨[("u", [1, 2])], [], [], [(1, ⟨"u", 0, 0⟩), (2, ⟨"u", 0, 0⟩)]⟩).1.user_presence
        = []) ∧
    (containsKey 1 (send_personal_message (OutMsg.pong 9) "u" [1] 9
        ⟨[("u", [1, 2])], [], [], [(1, ⟨"u", 0, 0⟩), (2, ⟨"u", 0, 0⟩)]⟩).1.connection_metadata
        = false) :=
  deliver_isolation_returns_none "u" 1 2 9 (OutMsg.pong 9) [] [] ⟨"u", 0, 0⟩ ⟨"u", 0, 0⟩
    (by decide)

/--
C3 counterexample: in the two-connections-one-broken scenario the call
performs exactly one successful delivery, yet its result is `none` (the
Python function returns `None`) — not the int `delivered_count = 1` the
claim states.
-/
theorem send_personal_message_returns_no_count :
    ((send_personal_message (OutMsg.pong 9) "u" [1] 9
        ⟨[("u", [1, 2])], [], [], [(1, ⟨"u", 0, 0⟩), (2, ⟨"u", 0, 0⟩)]⟩).2.1.length = 1) ∧
    ((send_personal_message (OutMsg.pong 9) "u" [1] 9
        ⟨[("u", [1, 2])], [], [], [(1, ⟨"u", 0, 0⟩), (2, ⟨"u", 0, 0⟩)]⟩).2.2 ≠ some 1) := by
  decide

/--
C5 (amended): the presence record's `last_seen` is written by every
connection registration of the user (not only the first) and by every
disconnect invocation that finds the user with no remaining registry entry;
join, leave and failure-free deliveries never change the presence map, and
records are created lazily by these `upsert` writes only.
-/
theorem presence_write_anatomy :
    (∀ (ws : Nat) (uid : String) (t : Nat) (σ : CMState),
      (connect ws uid t σ).user_presence = upsert uid t σ.user_presence) ∧
    (∀ (ws : Nat) (uid : String) (t : Nat) (σ : CMState),
      (disconnect ws uid t σ).user_presence
        = if containsKey uid (disconnect ws uid t σ).active_connections then σ.user_presence
          else upsert uid t σ.user_presence) ∧
    (∀ (uid room : String) (σ : CMState),
      (join_chatroom uid room σ).user_presence = σ.user_presence) ∧
    (∀ (uid room : String) (σ : CMState),
      (leave_chatroom uid room σ).user_presence = σ.user_presence) ∧
    (∀ (msg : OutMsg) (uid : String) (t : Nat) (σ : CMState),
      (send_personal_message msg uid [] t σ).1.user_presence = σ.user_presence) :=
  ⟨connect_presence, disconnect_presence, join_presence, leave_presence,
    fun msg uid t σ => (send_nil_broken_state msg uid t σ).2.2⟩

/--
C5 counterexample: user `"u"` connects at time 1 (`last_seen = 1`) and —
while still online — registers a second connection at time 5; the presence
record changes to `last_seen = 5`, so an operation other than the first
registration and the last removal mutated it.
-/
theorem second_connect_mutates_presence :
    (lookup "u" (connect 1 "u" 1 CMState.init).user_presence = some 1) ∧
    (is_user_online "u" (connect 1 "u" 1 CMState.init) = true) ∧
    (lookup "u" (connect 2 "u" 5 (connect 1 "u" 1 CMState.init)).user_presence = some 5) := by
  decide

/--
C6 (code evaluation): an active connection whose `last_activity` is 0
receives a `ping` at time 1800; the handler replies `pong` immediately on
that same connection but writes it directly on the websocket, leaving the
entire manager state — in particular `connection_metadata.last_activity` —
unchanged; the idle-reaping sweep at time 1801 (threshold 30 minutes) then
still compares against the stale timestamp 0 and force-closes the
connection.  This refutes "receiving a ping updates that connection's
last-activity timestamp".
-/
theorem ping_does_not_refresh_last_activity :
    (pingStep.1 = ConnState.active) ∧
    (pingStep.2.deliveries = [⟨1, "u", OutMsg.pong 1800⟩]) ∧
    (pingStep.2.state = pingState) ∧
    ((cleanup_stale_connections 1801 30 pingStep.2.state).active_connections = []) ∧
    ((cleanup_stale_connections 1801 30 pingStep.2.state).connection_metadata = []) := by
  decide

/--
C7 (amended): a second invocation of the disconnect path for a
`(connection, user)` pair — the state already reflecting the first
invocation: the websocket is in no registry list and has no metadata
entry — leaves the registry, the subscription index (no second cascading
purge) and the metadata map unchanged; when the user is still online the
state is completely untouched, but when the user is offline the presence
`last_seen` timestamp is overwritten again.
-/
theorem disconnect_second_invocation
    (ws : Nat) (uid : String) (t : Nat) (σ : CMState)
    (hA : ∀ p ∈ σ.active_connections, ws ∉ p.2)
    (hNE : ∀ p ∈ σ.active_connections, p.2 ≠ ([] : List Nat))
    (hM : containsKey ws σ.connection_metadata = false) :
    ((disconnect ws uid t σ).active_connections = σ.active_connections) ∧
    ((disconnect ws uid t σ).chatroom_subscriptions = σ.chatroom_subscriptions) ∧
    ((disconnect ws uid t σ).connection_metadata = σ.connection_metadata) ∧
    (is_user_online uid σ = true → disconnect ws uid t σ = σ) ∧
    (is_user_online uid σ = false →
      (disconnect ws uid t σ).user_presence = upsert uid t σ.user_presence) := by
  have hmeta : (disconnect ws uid t σ).connection_metadata = σ.connection_metadata := by
    rw [disconnect_meta, eraseKey_not_contains hM]
  have hactive : (disconnect ws uid t σ).active_connections = σ.active_connections ∧
      (disconnect ws uid t σ).chatroom_subscriptions = σ.chatroom_subscriptions := by
    rcases disconnect_cases ws uid t σ with ⟨_, h1, h2⟩ | ⟨conns, hl, ⟨he, _, _⟩ | ⟨_, h1, h2⟩⟩
    · exact ⟨h1, h2⟩
    · have hmem := lookup_mem hl
      rw [List.erase_of_not_mem (hA _ hmem)] at he
      exact absurd he (hNE _ hmem)
    · have hmem := lookup_mem hl
      rw [List.erase_of_not_mem (hA _ hmem)] at h1
      exact ⟨by rw [h1, upsert_lookup_self hl], h2⟩
  refine ⟨hactive.1, hactive.2, hmeta, ?_, ?_⟩
  · intro hon
    have hpres : (disconnect ws uid t σ).user_presence = σ.user_presence := by
      rw [disconnect_presence, hactive.1]
      unfold is_user_online at hon
      rw [hon]
      rfl
    ext1
    · exact hactive.1
    · exact hactive.2
    · exact hpres
    · exact hmeta
  · intro hoff
    rw [disconnect_presence, hactive.1]
    unfold is_user_online at hoff
    rw [hoff]
    rfl

/-- Witness for C7's amended theorem: after `"u"`'s only connection 1 is
disconnected from `c7Base`, a second disconnect of the same pair leaves the
subscription index (and registry) unchanged. -/
theorem disconnect_second_invocation_witness :
    ((disconnect 1 "u" 2 (disconnect 1 "u" 1 c7Base)).active_connections
        = (disconnect 1 "u" 1 c7Base).active_connections) ∧
    ((disconnect 1 "u" 2 (disconnect 1 "u" 1 c7Base)).chatroom_subscriptions
        = (disconnect 1 "u" 1 c7Base).chatroom_subscriptions) :=
  ⟨(disconnect_second_invocation 1 "u" 2 (disconnect 1 "u" 1 c7Base)
      (by decide) (by decide) (by decide)).1,
   (disconnect_second_invocation 1 "u" 2 (disconnect 1 "u" 1 c7Base)
      (by decide) (by decide) (by decide)).2.1⟩

/--
C7 counterexample: invoking `disconnect` a second time on the same
`(connection, user)` pair does not leave the state exactly as after the
first invocation — the presence `last_seen` of `"u"` is overwritten with
the later timestamp (2 instead of 1).
-/
theorem double_disconnect_changes_presence :
    (disconnect 1 "u" 2 (disconnect 1 "u" 1 c7Base) ≠ disconnect 1 "u" 1 c7Base) ∧
    (lookup "u" (disconnect 1 "u" 1 c7Base).user_presence = some 1) ∧
    (lookup "u" (disconnect 1 "u" 2 (disconnect 1 "u" 1 c7Base)).user_presence = some 2) := by
  decide

/--
C1 (code evaluation): user `"u"` is joined to rooms `"A"` and `"B"` across
connections 1 and 2, with `"v"` an online co-member of `"A"`.  Closing
connection 1 (non-final) already broadcasts `user_offline` to `"v"` while
`"u"` is still online; closing connection 2 runs the cascading purge first,
so the subsequent `user_offline` broadcast computes an empty recipient set
and delivers nothing.  `"u"` does vanish from `members(A)`/`members(B)`,
and `"v"` observes exactly one `user_offline` — but it is emitted before
(not after) the purge, and the post-purge broadcast reaches no one.
-/
theorem offline_broadcast_after_purge_reaches_no_one :
    (c1FirstClose.2 = [⟨3, "v", OutMsg.userStatus "offline" "u" 10⟩]) ∧
    (is_user_online "u" c1FirstClose.1 = true) ∧
    (c1SecondClose.2 = []) ∧
    ("u" ∉ get_chatroom_members "A" c1SecondClose.1) ∧
    ("u" ∉ get_chatroom_members "B" c1SecondClose.1) ∧
    ("v" ∈ get_chatroom_members "A" c1State) ∧
    ("u" ∈ get_chatroom_members "A" c1State) ∧
    ("u" ∈ get_chatroom_members "B" c1State) ∧
    (is_user_online "v" c1State = true) := by
  decide

/--
C8 (amended): every Redis publication issued by the receive loop carries
exactly the event fields of its `json.dumps` site — key shape
`["event", "message"]` for `send_message`, `["event", "user_id",
"username", "timestamp"]` for `user_joined`, `["event", "user_id",
"timestamp"]` for `user_left` — and hence no origin-process id; the
repository contains no Redis subscriber loop at all, so no self-origin
filtering exists.
-/
theorem redis_payload_key_shapes
    (ws : Nat) (uid username : String) (isMember : Membership) (frame : Frame)
    (broken : List Nat) (t : Nat) (σ : CMState) :
    ∀ pub ∈ (Router.routerStep ws uid username isMember frame broken t σ).2.pubs,
      pub.payload.map Prod.fst = ["event", "message"] ∨
      pub.payload.map Prod.fst = ["event", "user_id", "username", "timestamp"] ∨
      pub.payload.map Prod.fst = ["event", "user_id", "timestamp"] := by
  cases frame with
  | malformed =>
      intro pub hpub
      simp [Router.routerStep] at hpub
  | envelope ev data =>
      intro pub hpub
      unfold Router.routerStep at hpub
      dsimp only at hpub
      split at hpub <;>
        (try simp only [Router.handle_join_chatroom, Router.handle_leave_chatroom,
          Router.handle_send_message, Router.handle_typing_indicator] at hpub) <;>
        (repeat' split at hpub) <;>
        simp_all

/-- Witness for C8's amended theorem: the concrete publication issued for a
`send_message` is among the step's publications and its key shape is one of
the three event shapes. -/
theorem redis_payload_key_shapes_witness :
    ((⟨"chatroom:" ++ "general",
      [("event", JVal.str "message_received"),
       ("message", JVal.msg (Router.mkMessage "a" "A" "general" "hi" "text" none 7))]⟩ :
        RedisPub).payload.map Prod.fst = ["event", "message"]) ∨
    ((⟨"chatroom:" ++ "general",
      [("event", JVal.str "message_received"),
       ("message", JVal.msg (Router.mkMessage "a" "A" "general" "hi" "text" none 7))]⟩ :
        RedisPub).payload.map Prod.fst = ["event", "user_id", "username", "timestamp"]) ∨
    ((⟨"chatroom:" ++ "general",
      [("event", JVal.str "message_received"),
       ("message", JVal.msg (Router.mkMessage "a" "A" "general" "hi" "text" none 7))]⟩ :
        RedisPub).payload.map Prod.fst = ["event", "user_id", "timestamp"]) :=
  redis_payload_key_shapes 1 "a" "A" allMember
    (.envelope (some "send_message") { chatroom_id := some "general", content := some "hi" })
    [] 7 CMState.init
    ⟨"chatroom:" ++ "general",
      [("event", JVal.str "message_received"),
       ("message", JVal.msg (Router.mkMessage "a" "A" "general" "hi" "text" none 7))]⟩
    (by decide)

/--
C8 counterexample: the envelope published to Redis for a concrete
`send_message` has exactly the keys `event` and `message` and is published
on channel `chatroom:general` — it carries no origin-process id field.
-/
theorem send_message_publish_lacks_origin :
    ((Router.handle_send_message "a" "A" allMember
        { chatroom_id := some "general", content := some "hi" } [] 7 CMState.init).pubs.map
        (fun p => p.payload.map Prod.fst) = [["event", "message"]]) ∧
    ((Router.handle_send_message "a" "A" allMember
        { chatroom_id := some "general", content := some "hi" } [] 7 CMState.init).pubs.map
        (fun p => p.channel) = ["chatroom:general"]) := by
  decide

end ClaimTheorems

end RTChat
